import Mathlib

/-
Verification of the civic-data request handlers: a shallow embedding of the
normalization and classification routines (ordinal formatting, bill URL
synthesis and re-parsing, legislative stage inference, state resolution,
pagination, roster disambiguation, vote tallying, city verification), with
theorems settling the specified properties.

Strings are modelled as Lean `String` (a list of characters); the JavaScript
string operations used by the source (`includes`, `toLowerCase`,
`toUpperCase`, `trim`, `split`, `replace(/[^0-9]/g,"")`, truthiness of `""`,
`null`/`undefined` as `Option.none`) are given explicit executable
definitions below.  All source strings are ASCII, where the JS and Lean
case-conversion functions agree.
-/

/-- Boolean prefix test on character lists. -/
def prefOf : List Char → List Char → Bool
  | [], _ => true
  | _ :: _, [] => false
  | a :: p, b :: l => a == b && prefOf p l

/-- Boolean infix (contiguous substring) test on character lists. -/
def infOf (p : List Char) : List Char → Bool
  | [] => prefOf p []
  | b :: l => prefOf p (b :: l) || infOf p l

/-- Models JavaScript `s.includes(pat)`. -/
def strIncludes (s pat : String) : Bool := infOf pat.toList s.toList

/-- Models JavaScript `s.startsWith(p)` (used only in theorem statements). -/
def strStartsWith (s p : String) : Bool := prefOf p.toList s.toList

/-- Models JavaScript `s.toLowerCase()` on ASCII strings. -/
def toLowerS (s : String) : String := String.mk (s.toList.map Char.toLower)

/-- Models JavaScript `s.toUpperCase()` on ASCII strings. -/
def toUpperS (s : String) : String := String.mk (s.toList.map Char.toUpper)

/-- Models JavaScript `String(x).replace(/[^0-9]/g, "")`. -/
def digitsOf (s : String) : String := String.mk (s.toList.filter Char.isDigit)

/-- ASCII whitespace, for modelling JavaScript `trim`. -/
def isWsChar (c : Char) : Bool := c == ' ' || c == '\t' || c == '\n' || c == '\r'

/-- Models JavaScript `s.trim()` on ASCII strings. -/
def jsTrim (s : String) : String :=
  String.mk (((s.toList.dropWhile isWsChar).reverse.dropWhile isWsChar).reverse)

/-- Splitting a character list at every occurrence of a separator character;
models JavaScript `s.split(sep)` for a one-character separator. -/
def splitOnChar (c : Char) : List Char → List (List Char)
  | [] => [[]]
  | a :: rest =>
    if a == c then [] :: splitOnChar c rest
    else
      match splitOnChar c rest with
      | [] => [[a]]
      | s :: ss => (a :: s) :: ss

/-- Models the JavaScript idiom `a || b` for strings (`""` is falsy). -/
def jsOrStr (a b : String) : String := if a = "" then b else a

-- =====================================================
-- get-bills / bill-detail module
-- =====================================================

/-- The TYPE_MAP table mapping API bill type codes to Congress.gov URL
slugs. -/
def TYPE_MAP (t : String) : Option String :=
  if t = "hr" then some "house-bill"
  else if t = "s" then some "senate-bill"
  else if t = "hjres" then some "house-joint-resolution"
  else if t = "sjres" then some "senate-joint-resolution"
  else if t = "hconres" then some "house-concurrent-resolution"
  else if t = "sconres" then some "senate-concurrent-resolution"
  else if t = "hres" then some "house-resolution"
  else if t = "sres" then some "senate-resolution"
  else none

/-- ordinalSuffix from the source, for non-negative integer inputs (on which
the source's `Number(n)` coercion is the identity and `%` is the
mathematical remainder). -/
def ordinalSuffix (n : Nat) : String :=
  let mod100 := n % 100
  if 11 ≤ mod100 ∧ mod100 ≤ 13 then toString n ++ "th"
  else if n % 10 = 1 then toString n ++ "st"
  else if n % 10 = 2 then toString n ++ "nd"
  else if n % 10 = 3 then toString n ++ "rd"
  else toString n ++ "th"

/-- Decimal-numeral parse: `some n` when the string is a nonempty string of
digits, `none` otherwise.  Used to model the JavaScript `Number` coercion on
the string inputs buildPublicUrl feeds to ordinalSuffix. -/
def parseNatNumeral (s : String) : Option Nat :=
  if s ≠ "" ∧ s.toList.all Char.isDigit then
    some (s.toList.foldl (fun a c => 10 * a + (c.toNat - 48)) 0)
  else none

/-- ordinalSuffix as applied to string inputs inside buildPublicUrl: the
source coerces with `Number(n)`; the coercion is modelled for strings of
decimal digits, every other string behaving as NaN (NaN arithmetic makes
every comparison in ordinalSuffix false, so the source returns
`"NaN" + "th"`). -/
def ordinalSuffixStr (s : String) : String :=
  match parseNatNumeral s with
  | some n => ordinalSuffix n
  | none => "NaNth"

/-- An upstream bill record restricted to the fields buildPublicUrl reads
and to string-or-absent field values (`none` models an absent
`undefined`/`null` field; a numeric `congress` arriving as its decimal
numeral).  The full JavaScript value domain, with the non-string field
values on which the source can throw, is `RawBill` below; `buildPublicUrl`
here is the string-domain restriction, proved to agree with the
full-domain `buildPublicUrlJs` on this subdomain. -/
structure Bill where
  congress : Option String
  type : Option String
  number : Option String
  url : Option String
  apiUrl : Option String
deriving DecidableEq

/-- Models `new URL(s).pathname.split('/').filter(Boolean)` for http(s) URLs
(scheme, nonempty host, plain path, no query/fragment — the shapes occurring
in this code); any other input makes the `URL` constructor throw in the
source, modelled as `none`. -/
def parseHttpUrlPath (s : String) : Option (List String) :=
  let afterScheme : Option (List Char) :=
    if prefOf "https://".toList s.toList then some (s.toList.drop 8)
    else if prefOf "http://".toList s.toList then some (s.toList.drop 7)
    else none
  match afterScheme with
  | none => none
  | some r =>
    match splitOnChar '/' r with
    | [] => none
    | host :: segs =>
      if host = [] then none
      else some ((segs.map (fun l => String.mk l)).filter (fun p => p ≠ ""))

/-- The reading step of buildPublicUrl's fallback path: split the URL path,
locate the segment "bill", and read the next three segments as the
congress/type/number triple (type lowercased). -/
def parseBillTriple (s : String) : Option (String × String × String) :=
  match parseHttpUrlPath s with
  | none => none
  | some parts =>
    match parts.findIdx? (fun p => p = "bill") with
    | none => none
    | some i =>
      if i + 4 ≤ parts.length then
        some (parts.getD (i+1) "", toLowerS (parts.getD (i+2) ""), parts.getD (i+3) "")
      else none

/-- buildPublicUrl from the source: primary path from the bill's own fields,
then the URL-parsing fallback, then the host root. -/
def buildPublicUrl (bill : Bill) : String :=
  let congress := bill.congress.getD ""
  let ty := toLowerS (bill.type.getD "")
  let number := bill.number.getD ""
  let primary : Option String :=
    if congress = "" ∨ ty = "" ∨ number = "" then none
    else
      match TYPE_MAP ty with
      | none => none
      | some slug =>
        let num := digitsOf number
        if num = "" then none
        else some ("https://www.congress.gov/bill/" ++ ordinalSuffixStr congress ++
                   "-congress/" ++ slug ++ "/" ++ num)
  match primary with
  | some u => u
  | none =>
    match parseHttpUrlPath (jsOrStr (bill.url.getD "") (bill.apiUrl.getD "")) with
    | none => "https://www.congress.gov/"
    | some parts =>
      match parts.findIdx? (fun p => p = "bill") with
      | none => "https://www.congress.gov/"
      | some i =>
        if i + 4 ≤ parts.length then
          "https://www.congress.gov/bill/" ++ ordinalSuffixStr (parts.getD (i+1) "") ++
          "-congress/" ++
          ((TYPE_MAP (toLowerS (parts.getD (i+2) ""))).getD
            (toLowerS (parts.getD (i+2) "") ++ "-bill")) ++
          "/" ++ parts.getD (i+3) ""
        else "https://www.congress.gov/"

/-- A stage label together with its numeric priority. -/
structure Stage where
  display : String
  priority : Nat
deriving DecidableEq

/-- deriveBillStage from the source: the ordered keyword if-chain over the
lowercased action text. -/
def deriveBillStage (actionText : String) : Stage :=
  let t := toLowerS actionText
  if strIncludes t "became public law" || (strIncludes t "signed by president" || strIncludes t "enacted") then ⟨"Signed Into Law", 10⟩
  else if strIncludes t "vetoed" then ⟨"Vetoed", 9⟩
  else if strIncludes t "passed house" || (strIncludes t "passed senate" || strIncludes t "agreed to in") then ⟨"Passed Chamber", 8⟩
  else if strIncludes t "cloture" || (strIncludes t "floor consideration" || strIncludes t "placed on calendar") then ⟨"Floor Vote Pending", 7⟩
  else if strIncludes t "reported by" || strIncludes t "ordered to be reported" then ⟨"Reported by Committee", 6⟩
  else if strIncludes t "hearing" || strIncludes t "markup" then ⟨"Committee Hearing", 5⟩
  else if strIncludes t "referred to" || strIncludes t "subcommittee" then ⟨"In Committee", 4⟩
  else if strIncludes t "introduced" || (strIncludes t "read twice" || strIncludes t "sponsor introductory") then ⟨"Introduced", 3⟩
  else ⟨"In Progress", 3⟩

/-- The eight ordered keyword-group rules of the stage-classifier
specification, as written in the spec. -/
def stageRules : List (List String × Stage) :=
  [ (["became public law", "signed by president", "enacted"], ⟨"Signed Into Law", 10⟩),
    (["vetoed"], ⟨"Vetoed", 9⟩),
    (["passed house", "passed senate", "agreed to in"], ⟨"Passed Chamber", 8⟩),
    (["cloture", "floor consideration", "placed on calendar"], ⟨"Floor Vote Pending", 7⟩),
    (["reported by", "ordered to be reported"], ⟨"Reported by Committee", 6⟩),
    (["hearing", "markup"], ⟨"Committee Hearing", 5⟩),
    (["referred to", "subcommittee"], ⟨"In Committee", 4⟩),
    (["introduced", "read twice", "sponsor introductory"], ⟨"Introduced", 3⟩) ]

/-- First-match-wins evaluation of an ordered rule list over an
already-lowercased text, as the spec describes it; no match gives
("In Progress", 3). -/
def runStageRules (rules : List (List String × Stage)) (t : String) : Stage :=
  match rules with
  | [] => ⟨"In Progress", 3⟩
  | (kws, st) :: rest => if kws.any (fun k => strIncludes t k) then st else runStageRules rest t

/-- The stage classifier exactly as the specification words it:
case-insensitive first-match-wins evaluation of the eight ordered rules. -/
def stageSpec (actionText : String) : Stage := runStageRules stageRules (toLowerS actionText)

-- =====================================================
-- state-bills module
-- =====================================================

/-- The STATE_NAME_TO_ABBR table: lowercase full names of the 50 US states
plus the District of Columbia, mapped to their two-letter codes. -/
def STATE_NAME_TO_ABBR : List (String × String) :=
  [ ("alabama", "AL"), ("alaska", "AK"), ("arizona", "AZ"), ("arkansas", "AR"),
    ("california", "CA"), ("colorado", "CO"), ("connecticut", "CT"), ("delaware", "DE"),
    ("florida", "FL"), ("georgia", "GA"), ("hawaii", "HI"), ("idaho", "ID"),
    ("illinois", "IL"), ("indiana", "IN"), ("iowa", "IA"), ("kansas", "KS"),
    ("kentucky", "KY"), ("louisiana", "LA"), ("maine", "ME"), ("maryland", "MD"),
    ("massachusetts", "MA"), ("michigan", "MI"), ("minnesota", "MN"), ("mississippi", "MS"),
    ("missouri", "MO"), ("montana", "MT"), ("nebraska", "NE"), ("nevada", "NV"),
    ("new hampshire", "NH"), ("new jersey", "NJ"), ("new mexico", "NM"), ("new york", "NY"),
    ("north carolina", "NC"), ("north dakota", "ND"), ("ohio", "OH"), ("oklahoma", "OK"),
    ("oregon", "OR"), ("pennsylvania", "PA"), ("rhode island", "RI"), ("south carolina", "SC"),
    ("south dakota", "SD"), ("tennessee", "TN"), ("texas", "TX"), ("utah", "UT"),
    ("vermont", "VT"), ("virginia", "VA"), ("washington", "WA"), ("west virginia", "WV"),
    ("wisconsin", "WI"), ("wyoming", "WY"), ("district of columbia", "DC") ]

/-- Name lookup in the STATE_NAME_TO_ABBR table (models `MAP[key]`, absent
keys giving `undefined`, i.e. `none`). -/
def lookupAbbr (k : String) : Option String :=
  (STATE_NAME_TO_ABBR.find? (fun p => p.1 = k)).map (fun p => p.2)

/-- normalizeState from the source: trim; empty gives ""; any two-character
string is uppercased and returned as-is; otherwise the lowercased input is
looked up in the name table, a failed lookup giving "". -/
def normalizeState (input : Option String) : String :=
  let s := jsTrim (input.getD "")
  if s = "" then ""
  else if s.length = 2 then toUpperS s
  else (lookupAbbr (toLowerS s)).getD ""

/-- The state-validation gate of the state-bills handler: the request is
answered with status 400 when normalizeState yields the falsy "", and the
listing proceeds otherwise. -/
def rejectsStateParam (qstate : Option String) : Bool := normalizeState qstate = ""

/-- State resolution as the specification describes it: the parameter is
resolvable when it is (case-insensitively) one of the two-letter codes of the
50 states plus DC, or one of their full names. -/
def specStateResolvable (qstate : Option String) : Bool :=
  let s := jsTrim (qstate.getD "")
  STATE_NAME_TO_ABBR.any (fun p => p.2 = toUpperS s) ||
  STATE_NAME_TO_ABBR.any (fun p => p.1 = toLowerS s)

/-- toInt from the source: `Number.isFinite(n) && n >= 0 ? Math.floor(n) :
dflt`.  The JavaScript `Number` coercion of the raw query string is modelled
by its result: `some q` for a finite number `q`, `none` for NaN or ±Infinity
(a missing or non-numeric parameter coerces to NaN). -/
def toInt (x : Option ℚ) (dflt : Int) : Int :=
  match x with
  | some q => if 0 ≤ q then Int.floor q else dflt
  | none => dflt

/-- Models `Array.slice(start, stop)` for `0 ≤ start ≤ stop` (the only way
the source calls it). -/
def jsSlice {α : Type} (l : List α) (start stop : Int) : List α :=
  (l.drop start.toNat).take (stop - start).toNat

/-- The result of the state-bills listing: the page of records plus the
pagination block of the response. -/
structure StateListResult (α : Type) where
  bills : List α
  limit : Int
  offset : Int
  returned : Nat
  total_estimate : Nat
deriving DecidableEq

/-- The listing step of the state-bills handler, for a master list already
decoded to a list of raw records: the effective limit is
`Math.min(toInt(qs.limit, 50), 200)`, the effective offset `toInt(qs.offset,
0)`; the page is `billsRaw.slice(offset, offset + limit)` and
`pagination.returned` is set to the length of the response's bills array.
The per-record field normalization of the source is a `map` over the page
and is length-preserving; it is abstracted as the identity here. -/
def stateListing {α : Type} (billsRaw : List α) (qlimit qoffset : Option ℚ) :
    StateListResult α :=
  let limit := min (toInt qlimit 50) 200
  let offset := toInt qoffset 0
  let page := jsSlice billsRaw offset (offset + limit)
  { bills := page, limit := limit, offset := offset,
    returned := page.length, total_estimate := billsRaw.length }

-- =====================================================
-- city-council module
-- =====================================================

/-- A Legistar body record, restricted to the fields the members endpoint
reads. -/
structure CouncilBody where
  BodyId : Nat
  BodyName : String
  BodyActiveFlag : Int
deriving DecidableEq

/-- A Legistar office record.  Dates are modelled as epoch instants
(integers); `none` models an absent end date. -/
structure OfficeRecord where
  OfficeRecordBodyId : Nat
  OfficeRecordPersonId : Nat
  OfficeRecordTitle : String
  OfficeRecordEndDate : Option Int
deriving DecidableEq

/-- A Legistar person record, restricted to the fields the members endpoint
filters on. -/
structure Person where
  PersonId : Nat
  PersonFullName : String
  PersonActiveFlag : Int
deriving DecidableEq

/-- The primary-keyword set for recognizing the main governing body. -/
def primaryKeywords : List String :=
  ["city council", "town council", "mayor and council", "mayor & council",
   "board of supervisors", "common council"]

/-- The broader fallback keyword set. -/
def broadKeywords : List String := ["council", "mayor", "aldermen"]

/-- The exclusion keyword set for the broader fallback. -/
def excludeKeywords : List String :=
  ["advisory", "committee", "commission", "subcommittee", "task force",
   "authority", "board of adjustment", "planning", "zoning"]

/-- Step 1 of the members endpoint: select the council bodies — active bodies
matching a primary keyword, else active bodies matching a broad keyword and
no exclusion keyword. -/
def selectCouncilBodies (bodies : List CouncilBody) : List CouncilBody :=
  let primaryBodies := bodies.filter (fun b =>
    primaryKeywords.any (fun kw => strIncludes (toLowerS b.BodyName) kw) &&
    b.BodyActiveFlag == 1)
  if primaryBodies.length > 0 then primaryBodies
  else bodies.filter (fun b =>
    broadKeywords.any (fun kw => strIncludes (toLowerS b.BodyName) kw) &&
    !(excludeKeywords.any (fun kw => strIncludes (toLowerS b.BodyName) kw)) &&
    b.BodyActiveFlag == 1)

/-- Whether an office record is currently active: no end date, or an end date
strictly after the current time (`new Date(or.OfficeRecordEndDate) > now`). -/
def officeIsActive (r : OfficeRecord) (now : Int) : Bool :=
  match r.OfficeRecordEndDate with
  | none => true
  | some d => decide (now < d)

/-- Step 2 of the members endpoint: keep office records that are in a council
body (or all records when no council bodies were found) and currently
active. -/
def activeCouncilOffices (councilBodyIds : List Nat) (records : List OfficeRecord)
    (now : Int) : List OfficeRecord :=
  records.filter (fun r =>
    (councilBodyIds.length == 0 || councilBodyIds.contains r.OfficeRecordBodyId) &&
    officeIsActive r now)

/-- Models `[...new Set(l)]`: deduplication keeping first occurrences in
insertion order. -/
def jsSetDedup (l : List Nat) : List Nat :=
  l.foldl (fun acc a => if a ∈ acc then acc else acc ++ [a]) []

/-- The staff/system name exclusion vocabulary of the no-office-records
fallback. -/
def excludeNames : List String :=
  ["system", "monitor", "view only", "test", "admin", "clerk", "secretary",
   "attorney", "manager", "director", "coordinator", "analyst", "assistant", "staff"]

/-- Steps 1–4 of the members endpoint: from bodies, office records and the
fetched persons list, the selected council members.  When the active council
offices name at least one person, exactly the persons with those ids are
kept; otherwise all active persons whose full name avoids the staff
vocabulary. -/
def councilMembersOf (bodies : List CouncilBody) (records : List OfficeRecord)
    (persons : List Person) (now : Int) : List Person :=
  let councilBodyIds := (selectCouncilBodies bodies).map (fun b => b.BodyId)
  let offices := activeCouncilOffices councilBodyIds records now
  let councilPersonIds := jsSetDedup (offices.map (fun r => r.OfficeRecordPersonId))
  if councilPersonIds.length > 0 then
    persons.filter (fun p => councilPersonIds.contains p.PersonId)
  else
    (persons.filter (fun p => p.PersonActiveFlag == 1)).filter (fun p =>
      !(excludeNames.any (fun ex => strIncludes (toLowerS p.PersonFullName) ex)))

/-- A vote record, restricted to the free-text value label the summary
classifies on (`none` models a null `VoteValueName`). -/
structure VoteRec where
  valueName : Option String
deriving DecidableEq

/-- The yes bucket: label present (truthy) and containing "aye", "yes" or
"affirmative" case-insensitively. -/
def voteIsYes (v : VoteRec) : Bool :=
  match v.valueName with
  | none => false
  | some s =>
    if s = "" then false
    else strIncludes (toLowerS s) "aye" ||
         (strIncludes (toLowerS s) "yes" || strIncludes (toLowerS s) "affirmative")

/-- The no bucket: label containing "nay" or "no". -/
def voteIsNo (v : VoteRec) : Bool :=
  match v.valueName with
  | none => false
  | some s =>
    if s = "" then false
    else strIncludes (toLowerS s) "nay" || strIncludes (toLowerS s) "no"

/-- The absent bucket: label containing "absent" or "excused". -/
def voteIsAbsent (v : VoteRec) : Bool :=
  match v.valueName with
  | none => false
  | some s =>
    if s = "" then false
    else strIncludes (toLowerS s) "absent" || strIncludes (toLowerS s) "excused"

/-- The abstain bucket: label containing "abstain" or "present". -/
def voteIsAbstain (v : VoteRec) : Bool :=
  match v.valueName with
  | none => false
  | some s =>
    if s = "" then false
    else strIncludes (toLowerS s) "abstain" || strIncludes (toLowerS s) "present"

/-- The vote summary block computed by the votes endpoint. -/
structure VoteSummary where
  total : Nat
  yes : Nat
  no : Nat
  absent : Nat
  abstain : Nat
deriving DecidableEq

/-- The summary stats of the votes endpoint: total plus the four keyword
bucket counts, each a filter over the same vote history. -/
def voteSummaryOf (votes : List VoteRec) : VoteSummary :=
  { total := votes.length,
    yes := (votes.filter voteIsYes).length,
    no := (votes.filter voteIsNo).length,
    absent := (votes.filter voteIsAbsent).length,
    abstain := (votes.filter voteIsAbstain).length }

/-- How many of the four buckets a single record falls into. -/
def voteBucketCount (v : VoteRec) : Nat :=
  (if voteIsYes v then 1 else 0) + (if voteIsNo v then 1 else 0) +
  (if voteIsAbsent v then 1 else 0) + (if voteIsAbstain v then 1 else 0)

/-- The canonical Legistar vote value labels (lowercased). -/
def canonicalVoteLabels : List String :=
  ["aye", "yes", "affirmative", "nay", "no", "absent", "excused", "abstain", "present"]

/-- Whether a record's label is (up to case) one of the canonical vote
values. -/
def canonicalVote (v : VoteRec) : Bool :=
  match v.valueName with
  | none => false
  | some s => canonicalVoteLabels.contains (toLowerS s)

/-- A person record as read by the verification probes. -/
structure VPersonRec where
  PersonActiveFlag : Int
  PersonFullName : Option String
deriving DecidableEq

/-- The "real person" filter of verification check 1: active flag 1, truthy
full name, and a name mentioning neither "System" nor "View Only"
(case-sensitive, as in the source). -/
def realPerson (p : VPersonRec) : Bool :=
  (p.PersonActiveFlag == 1) &&
  (match p.PersonFullName with
   | none => false
   | some nm =>
     nm ≠ "" && (!(strIncludes nm "System") && !(strIncludes nm "View Only")))

/-- The outcomes of the three upstream probes of verifyCity; `Except.error`
models a probe whose fetch threw.  Only the lengths and the person fields
used by the checks are modelled. -/
structure VerifyEnv where
  persons : Except String (List VPersonRec)
  matters : Except String (List String)
  events : Except String (List String)

/-- A single check of the verification report (the sample lists of the source
carry no decision weight and are omitted). -/
structure CheckResult where
  pass : Bool
  count : Nat
deriving DecidableEq

/-- The verification report card. -/
structure VerifyReport where
  personsCheck : CheckResult
  legislationCheck : CheckResult
  eventsCheck : CheckResult
  overallPass : Bool
deriving DecidableEq

/-- Boolean success test for a probe outcome. -/
def exceptOk {ε α : Type} (e : Except ε α) : Bool :=
  match e with
  | Except.ok _ => true
  | Except.error _ => false

/-- verifyCity from the source: each probe is tried under its own catch, a
failed probe yielding a failed check; overall pass requires the persons or
the legislation check to pass. -/
def verifyCity (env : VerifyEnv) : VerifyReport :=
  let pc : CheckResult :=
    match env.persons with
    | Except.ok ps =>
      let rp := ps.filter realPerson
      ⟨rp.length > 0, rp.length⟩
    | Except.error _ => ⟨false, 0⟩
  let lc : CheckResult :=
    match env.matters with
    | Except.ok ms => ⟨ms.length > 0, ms.length⟩
    | Except.error _ => ⟨false, 0⟩
  let ec : CheckResult :=
    match env.events with
    | Except.ok es => ⟨es.length > 0, es.length⟩
    | Except.error _ => ⟨false, 0⟩
  { personsCheck := pc, legislationCheck := lc, eventsCheck := ec,
    overallPass := pc.pass || lc.pass }

/-- The type=verify branch of the city-council handler: a falsy client
parameter is answered 400 (with no report); otherwise the verification runs
under a catch and the answer is 200 — with the report's overallPass, or with
overallPass false when the verification itself threw (`crash` models that
exception, which has no other representation in the embedding).  The result
is the status code paired with the reported overallPass. -/
def verifyBranch (clientParam : Option String) (env : VerifyEnv)
    (crash : Option String) : Nat × Option Bool :=
  match clientParam with
  | none => (400, none)
  | some c =>
    if c = "" then (400, none)
    else
      match crash with
      | some _ => (200, some false)
      | none => (200, some (verifyCity env).overallPass)

-- =====================================================
-- Full JavaScript value domain for buildPublicUrl
-- =====================================================

/-- A JavaScript field value as buildPublicUrl can receive one: absent
(null/undefined), a string, or a number.  Other value shapes (booleans,
objects) behave like numbers for everything buildPublicUrl does with a
field: they are truthy or falsy and have no toLowerCase method. -/
inductive JsVal where
  | vnull : JsVal
  | vstr : String → JsVal
  | vnum : Int → JsVal
deriving DecidableEq

/-- JavaScript truthiness of a field value (`""` and 0 are falsy). -/
def jsTruthy : JsVal → Bool
  | JsVal.vnull => false
  | JsVal.vstr s => decide (s ≠ "")
  | JsVal.vnum n => decide (n ≠ 0)

/-- Models `v || ""` on a field value. -/
def jsOrEmpty (v : JsVal) : JsVal := if jsTruthy v then v else JsVal.vstr ""

/-- Models `a || b` on field values. -/
def jsValOr (a b : JsVal) : JsVal := if jsTruthy a then a else b

/-- Models the `String(v)` coercion (for the value shapes carried here). -/
def jsToString : JsVal → String
  | JsVal.vnull => "null"
  | JsVal.vstr s => s
  | JsVal.vnum n => toString n

/-- Models `v.toLowerCase()`: defined on strings, a TypeError on any other
value — in buildPublicUrl this call sits outside the try/catch. -/
def jsLowerVal : JsVal → Except String String
  | JsVal.vstr s => Except.ok (toLowerS s)
  | _ => Except.error "TypeError: toLowerCase is not a function"

/-- ordinalSuffix on a JavaScript number: `Number(n)` is the identity and
the source's `%` is the truncated remainder. -/
def ordinalSuffixInt (n : Int) : String :=
  let mod100 := n.tmod 100
  if 11 ≤ mod100 ∧ mod100 ≤ 13 then toString n ++ "th"
  else if n.tmod 10 = 1 then toString n ++ "st"
  else if n.tmod 10 = 2 then toString n ++ "nd"
  else if n.tmod 10 = 3 then toString n ++ "rd"
  else toString n ++ "th"

/-- ordinalSuffix on an arbitrary field value, following the source's
`Number(n)` coercion: numbers unchanged, strings as in ordinalSuffixStr,
null coercing to 0. -/
def ordinalSuffixVal : JsVal → String
  | JsVal.vnum n => ordinalSuffixInt n
  | JsVal.vstr s => ordinalSuffixStr s
  | JsVal.vnull => ordinalSuffixInt 0

/-- A raw upstream bill record over the full JavaScript value domain,
before any assumption that fields are strings. -/
structure RawBill where
  congress : JsVal
  type : JsVal
  number : JsVal
  url : JsVal
  apiUrl : JsVal
deriving DecidableEq

/-- buildPublicUrl over the full JavaScript value domain, with the one
uncaught throw made explicit: `(bill.type || "").toLowerCase()` raises a
TypeError for a truthy non-string type, and that call is outside the
try/catch, which protects only the URL constructor.  Every other operation
of the source (truthiness tests, `Number`, `String`, the guarded URL parse,
`parts[i+2].toLowerCase()` on split results, which are strings) is total. -/
def buildPublicUrlJs (bill : RawBill) : Except String String :=
  let congress := jsOrEmpty bill.congress
  match jsLowerVal (jsOrEmpty bill.type) with
  | Except.error e => Except.error e
  | Except.ok ty =>
    let number := jsOrEmpty bill.number
    let primary : Option String :=
      if jsTruthy congress = true ∧ ty ≠ "" ∧ jsTruthy number = true then
        match TYPE_MAP ty with
        | none => none
        | some slug =>
          let num := digitsOf (jsToString number)
          if num = "" then none
          else some ("https://www.congress.gov/bill/" ++ ordinalSuffixVal congress ++
                     "-congress/" ++ slug ++ "/" ++ num)
      else none
    Except.ok
      (match primary with
       | some u => u
       | none =>
         match parseHttpUrlPath (jsToString (jsOrEmpty (jsValOr bill.url bill.apiUrl))) with
         | none => "https://www.congress.gov/"
         | some parts =>
           match parts.findIdx? (fun p => p = "bill") with
           | none => "https://www.congress.gov/"
           | some i =>
             if i + 4 ≤ parts.length then
               "https://www.congress.gov/bill/" ++ ordinalSuffixStr (parts.getD (i+1) "") ++
               "-congress/" ++
               ((TYPE_MAP (toLowerS (parts.getD (i+2) ""))).getD
                 (toLowerS (parts.getD (i+2) "") ++ "-bill")) ++
               "/" ++ parts.getD (i+3) ""
             else "https://www.congress.gov/")

/-- Embedding of a string-or-absent field into the full value domain. -/
def toJsVal : Option String → JsVal
  | none => JsVal.vnull
  | some s => JsVal.vstr s

/-- The full-value-domain record of a string-or-absent record. -/
def rawOfBill (bill : Bill) : RawBill :=
  ⟨toJsVal bill.congress, toJsVal bill.type, toJsVal bill.number,
   toJsVal bill.url, toJsVal bill.apiUrl⟩

-- =====================================================
-- Shared lemmas
-- =====================================================

/-- A list is a prefix of itself followed by anything. -/
theorem prefOf_append (l m : List Char) : prefOf l (l ++ m) = true := by
  induction l with
  | nil => rfl
  | cons a p ih => simp [prefOf, ih]

/-- `toList` distributes over string append. -/
theorem strToList_append (a b : String) : (a ++ b).toList = a.toList ++ b.toList := rfl

/-- Rebuilding a string from its characters is the identity. -/
theorem strMk_toList (s : String) : String.mk s.toList = s := rfl

/-- String append is associative. -/
theorem strAppend_assoc (a b c : String) : (a ++ b) ++ c = a ++ (b ++ c) := by
  cases a; cases b; cases c
  show String.mk _ = String.mk _
  simp [String.append, List.append_assoc]

/-- `strStartsWith` holds on any extension to the right. -/
theorem strStartsWith_append (p s : String) : strStartsWith (p ++ s) p = true := by
  unfold strStartsWith
  rw [strToList_append]
  exact prefOf_append _ _

/-- Splitting a list without the separator yields the singleton. -/
theorem splitOnChar_not_mem (c : Char) (l : List Char) (h : c ∉ l) :
    splitOnChar c l = [l] := by
  induction l with
  | nil => rfl
  | cons a t ih =>
    have ha : (a == c) = false := by
      simp only [beq_eq_false_iff_ne]
      intro he; exact h (he ▸ List.mem_cons_self a t)
    have ht := ih (fun hm => h (List.mem_cons_of_mem a hm))
    simp [splitOnChar, ha, ht]

/-- Splitting at the first separator occurrence peels off the head chunk. -/
theorem splitOnChar_append (c : Char) (l m : List Char) (h : c ∉ l) :
    splitOnChar c (l ++ c :: m) = l :: splitOnChar c m := by
  induction l with
  | nil => simp [splitOnChar]
  | cons a t ih =>
    have ha : (a == c) = false := by
      simp only [beq_eq_false_iff_ne]
      intro he; exact h (he ▸ List.mem_cons_self a t)
    have ht := ih (fun hm => h (List.mem_cons_of_mem a hm))
    simp [splitOnChar, ha, List.append_eq, ht]


-- =====================================================
-- C8 — ordinal formatter
-- =====================================================

/-- C8: for every non-negative integer n, ordinalSuffix appends "th" when
n mod 100 lies in [11,13], and otherwise appends "st", "nd", "rd" or "th"
according to n mod 10 being 1, 2, 3 or anything else; in particular
ordinalSuffix 119 = "119th", ordinalSuffix 101 = "101st" and
ordinalSuffix 112 = "112th". -/
theorem ordinalSuffix_spec (n : Nat) :
    (11 ≤ n % 100 ∧ n % 100 ≤ 13 → ordinalSuffix n = toString n ++ "th") ∧
    (¬(11 ≤ n % 100 ∧ n % 100 ≤ 13) →
      ordinalSuffix n = toString n ++
        (if n % 10 = 1 then "st"
         else if n % 10 = 2 then "nd"
         else if n % 10 = 3 then "rd"
         else "th")) ∧
    ordinalSuffix 119 = "119th" ∧ ordinalSuffix 101 = "101st" ∧
    ordinalSuffix 112 = "112th" := by
  refine ⟨fun h => by simp [ordinalSuffix, h], fun h => ?_, by decide, by decide, by decide⟩
  unfold ordinalSuffix
  rw [if_neg h]
  split_ifs <;> rfl

/-- C8 witness: the theorem applied at 23, whose hypothesis 23 % 100 outside
[11,13] holds. -/
theorem ordinalSuffix_spec_witness : ordinalSuffix 23 = "23rd" := by
  have h := (ordinalSuffix_spec 23).2.1 (by decide)
  rw [h]; decide

-- =====================================================
-- C3 — stage classifier
-- =====================================================

/-- C3: deriveBillStage coincides with first-match-wins evaluation of the
eight ordered keyword-group rules of the specification (default
("In Progress", 3), including on empty input); and a text containing both
"introduced" and "referred to" but no keyword of rules 1–6 classifies as
("In Committee", 4). -/
theorem deriveBillStage_spec (s : String) :
    deriveBillStage s = stageSpec s ∧
    (strIncludes (toLowerS s) "introduced" = true →
     strIncludes (toLowerS s) "referred to" = true →
     ((stageRules.take 6).all
        (fun r => !(r.1.any (fun k => strIncludes (toLowerS s) k)))) = true →
     deriveBillStage s = ⟨"In Committee", 4⟩) := by
  constructor
  · unfold deriveBillStage stageSpec
    generalize toLowerS s = t
    simp only [runStageRules, stageRules, List.any_cons, List.any_nil, Bool.or_false]
  · intro hintro href hnone
    simp only [stageRules, List.take, List.all_cons, List.all_nil, List.any_cons,
      List.any_nil, Bool.or_false, Bool.and_eq_true, Bool.not_eq_true',
      Bool.or_eq_false_iff] at hnone
    unfold deriveBillStage
    simp [href, hnone.1, hnone.2.1, hnone.2.2.1, hnone.2.2.2.1, hnone.2.2.2.2.1,
      hnone.2.2.2.2.2]

/-- C3 witness: the theorem applied to a concrete action text containing both
"introduced" and "referred to" and no keyword of an earlier rule. -/
theorem deriveBillStage_spec_witness :
    deriveBillStage "Introduced and referred to the Subcommittee on Health" =
      ⟨"In Committee", 4⟩ :=
  (deriveBillStage_spec "Introduced and referred to the Subcommittee on Health").2
    (by decide) (by decide) (by decide)

-- =====================================================
-- C2 — vote tally buckets
-- =====================================================

/-- C2 counterexample: the label "Not Present" contains both "no" (inside
"not") and "present", so the record is counted in the no bucket and in the
abstain bucket at once, and on the one-record history the four bucket counts
sum to 2 while the total is 1. -/
theorem voteBuckets_disjoint_cex :
    voteIsNo ⟨some "Not Present"⟩ = true ∧ voteIsAbstain ⟨some "Not Present"⟩ = true ∧
    voteSummaryOf [⟨some "Not Present"⟩] =
      { total := 1, yes := 0, no := 1, absent := 0, abstain := 1 } ∧
    ¬(0 + 1 + 0 + 1 ≤ 1) := by decide

/-- Each record with a canonical Legistar label falls into at most one of the
four buckets. -/
theorem canonical_bucket_le_one (v : VoteRec) (h : canonicalVote v = true) :
    voteBucketCount v ≤ 1 := by
  rcases v with ⟨vn⟩
  cases vn with
  | none => simp [canonicalVote] at h
  | some s =>
    have hmem : toLowerS s ∈ canonicalVoteLabels := by
      simpa [canonicalVote] using h
    have hs : s ≠ "" := by
      intro he
      subst he
      revert hmem
      decide
    simp only [canonicalVoteLabels, List.mem_cons, List.not_mem_nil, or_false] at hmem
    rcases hmem with h1|h1|h1|h1|h1|h1|h1|h1|h1 <;>
      simp [voteBucketCount, voteIsYes, voteIsNo, voteIsAbsent, voteIsAbstain, hs, h1] <;>
      decide

/-- If every record lands in at most one bucket, the four bucket counts sum
to at most the total. -/
theorem bucket_counts_le_total (l : List VoteRec)
    (h : ∀ v ∈ l, voteBucketCount v ≤ 1) :
    (l.filter voteIsYes).length + (l.filter voteIsNo).length +
      (l.filter voteIsAbsent).length + (l.filter voteIsAbstain).length ≤ l.length := by
  induction l with
  | nil => simp
  | cons a t ih =>
    have ha := h a (List.mem_cons_self a t)
    have ht := ih (fun v hv => h v (List.mem_cons_of_mem a hv))
    have ha' : (if voteIsYes a then 1 else 0) + (if voteIsNo a then 1 else 0) +
        (if voteIsAbsent a then 1 else 0) + (if voteIsAbstain a then 1 else 0) ≤ 1 := ha
    simp only [List.filter_cons, List.length_cons]
    split_ifs at ha' ⊢ <;> simp_all <;> omega

/-- C2 amended: the four keyword buckets are not disjoint on arbitrary labels
(see the counterexample), but on records whose label is one of the canonical
Legistar vote values — aye, yes, affirmative, nay, no, absent, excused,
abstain, present, in any letter case — each record is counted in at most one
bucket, and the yes, no, absent and abstain counts of the summary sum to at
most the total. -/
theorem voteSummary_canonical (votes : List VoteRec)
    (h : ∀ v ∈ votes, canonicalVote v = true) :
    (∀ v ∈ votes, voteBucketCount v ≤ 1) ∧
    (voteSummaryOf votes).yes + (voteSummaryOf votes).no +
      (voteSummaryOf votes).absent + (voteSummaryOf votes).abstain ≤
      (voteSummaryOf votes).total := by
  refine ⟨fun v hv => canonical_bucket_le_one v (h v hv), ?_⟩
  simpa [voteSummaryOf] using
    bucket_counts_le_total votes (fun v hv => canonical_bucket_le_one v (h v hv))

/-- C2 witness: the amended theorem applied to a concrete canonical vote
history. -/
theorem voteSummary_canonical_witness :
    (voteSummaryOf [⟨some "Aye"⟩, ⟨some "Aye"⟩, ⟨some "Nay"⟩, ⟨some "Absent"⟩]).yes +
      (voteSummaryOf [⟨some "Aye"⟩, ⟨some "Aye"⟩, ⟨some "Nay"⟩, ⟨some "Absent"⟩]).no +
      (voteSummaryOf [⟨some "Aye"⟩, ⟨some "Aye"⟩, ⟨some "Nay"⟩, ⟨some "Absent"⟩]).absent +
      (voteSummaryOf [⟨some "Aye"⟩, ⟨some "Aye"⟩, ⟨some "Nay"⟩, ⟨some "Absent"⟩]).abstain ≤
      (voteSummaryOf [⟨some "Aye"⟩, ⟨some "Aye"⟩, ⟨some "Nay"⟩, ⟨some "Absent"⟩]).total :=
  (voteSummary_canonical [⟨some "Aye"⟩, ⟨some "Aye"⟩, ⟨some "Nay"⟩, ⟨some "Absent"⟩]
    (by decide)).2

-- =====================================================
-- C5 — state resolution
-- =====================================================

/-- Every value in the state table is nonempty, so a successful name lookup
never yields the falsy "". -/
theorem lookupAbbr_ne_empty (k v : String) (h : lookupAbbr k = some v) : v ≠ "" := by
  unfold lookupAbbr at h
  rcases Option.map_eq_some'.mp h with ⟨p, hp, hv⟩
  have hmem : p ∈ STATE_NAME_TO_ABBR := List.mem_of_find?_eq_some hp
  have hall : ∀ q ∈ STATE_NAME_TO_ABBR, q.2 ≠ "" := by decide
  exact hv ▸ hall p hmem

/-- Uppercasing preserves emptiness. -/
theorem toUpperS_eq_empty (s : String) : toUpperS s = "" ↔ s = "" := by
  cases s with
  | mk l =>
    cases l with
    | nil => simp [toUpperS]
    | cons a t =>
      constructor
      · intro h
        exact absurd (congrArg String.toList h) (by simp [toUpperS])
      · intro h
        exact absurd (congrArg String.toList h) (by simp)

/-- C5 counterexample: the two-character input "zz" resolves to no state of
the 50-plus-DC set, yet the handler does not reject it — normalizeState
uppercases any two-character string without validating it against the set,
so the 400 response is not returned exactly on unresolvable inputs. -/
theorem stateGate_cex :
    rejectsStateParam (some "zz") = false ∧
    specStateResolvable (some "zz") = false := by decide

/-- C5 amended: the handler rejects with 400 exactly when the trimmed
parameter is empty, or has length different from two and its lowercased form
is not a known full state name.  Any two-character input is accepted
(uppercased) without validation against the state set; full names are
resolved case-insensitively against the 50 states plus DC. -/
theorem stateGate_characterization (q : Option String) :
    rejectsStateParam q = true ↔
      (jsTrim (q.getD "") = "" ∨
       ((jsTrim (q.getD "")).length ≠ 2 ∧
        lookupAbbr (toLowerS (jsTrim (q.getD ""))) = none)) := by
  unfold rejectsStateParam normalizeState
  by_cases h0 : jsTrim (q.getD "") = ""
  · simp [h0]
  · by_cases h2 : (jsTrim (q.getD "")).length = 2
    · simp only [h0, if_false, h2, if_true, if_pos]
      simp [toUpperS_eq_empty, h0, h2]
    · simp only [h0, if_false, h2, if_false]
      cases hl : lookupAbbr (toLowerS (jsTrim (q.getD ""))) with
      | none => simp [h0, h2, hl]
      | some v =>
        simp [h0, h2, hl, lookupAbbr_ne_empty _ v hl]

-- =====================================================
-- C9 — verify branch status
-- =====================================================

/-- C9: for a non-empty client parameter, the type=verify branch answers 200
whatever the probe outcomes (and whether or not the verification itself
threw), and when the persons and legislation probes both fail the body
reports overallPass = false — connectivity failures are never surfaced as a
4xx or 5xx status. -/
theorem verifyBranch_always_200 (c : String) (hc : c ≠ "") (env : VerifyEnv)
    (crash : Option String) :
    (verifyBranch (some c) env crash).1 = 200 ∧
    (exceptOk env.persons = false → exceptOk env.matters = false →
      (verifyBranch (some c) env crash).2 = some false) := by
  constructor
  · cases crash <;> simp [verifyBranch, hc]
  · intro hp hm
    cases crash with
    | some msg => simp [verifyBranch, hc]
    | none =>
      cases hpe : env.persons with
      | ok ps => rw [hpe] at hp; exact absurd hp (by simp [exceptOk])
      | error e =>
        cases hme : env.matters with
        | ok ms => rw [hme] at hm; exact absurd hm (by simp [exceptOk])
        | error e2 => simp [verifyBranch, hc, verifyCity, hpe, hme]

/-- C9 witness: the theorem applied to a concrete client with all three
probes failing. -/
theorem verifyBranch_always_200_witness :
    (verifyBranch (some "glendale-az")
        ⟨Except.error "fetch failed", Except.error "fetch failed",
         Except.error "fetch failed"⟩ none).1 = 200 ∧
    (verifyBranch (some "glendale-az")
        ⟨Except.error "fetch failed", Except.error "fetch failed",
         Except.error "fetch failed"⟩ none).2 = some false := by
  have h := verifyBranch_always_200 "glendale-az" (by decide)
    ⟨Except.error "fetch failed", Except.error "fetch failed",
     Except.error "fetch failed"⟩ none
  exact ⟨h.1, h.2 rfl rfl⟩

-- =====================================================
-- C10 — state-bills pagination
-- =====================================================

/-- C10: the effective page size is min(floor(limit), 200) when the limit
parameter coerces to a finite number ≥ 0 and 50 otherwise; the effective
offset is floor(offset) for a finite coercion ≥ 0 and 0 otherwise;
pagination.returned equals the length of the returned bills array, and that
length never exceeds 200. -/
theorem stateListing_pagination {α : Type} (billsRaw : List α)
    (qlimit qoffset : Option ℚ) :
    (stateListing billsRaw qlimit qoffset).limit =
      (match qlimit with
       | some q => if 0 ≤ q then min (Int.floor q) 200 else 50
       | none => 50) ∧
    (stateListing billsRaw qlimit qoffset).offset =
      (match qoffset with
       | some q => if 0 ≤ q then Int.floor q else 0
       | none => 0) ∧
    (stateListing billsRaw qlimit qoffset).returned =
      (stateListing billsRaw qlimit qoffset).bills.length ∧
    (stateListing billsRaw qlimit qoffset).bills.length ≤ 200 := by
  refine ⟨?_, ?_, rfl, ?_⟩
  · cases qlimit with
    | none => simp [stateListing, toInt]
    | some q =>
      by_cases hq : 0 ≤ q <;> simp [stateListing, toInt, hq]
  · cases qoffset with
    | none => simp [stateListing, toInt]
    | some q =>
      by_cases hq : 0 ≤ q <;> simp [stateListing, toInt, hq]
  · show (jsSlice billsRaw _ _).length ≤ 200
    unfold jsSlice
    have h1 : (toInt qoffset 0 + min (toInt qlimit 50) 200 - toInt qoffset 0)
        = min (toInt qlimit 50) 200 := by omega
    rw [h1]
    calc ((billsRaw.drop (toInt qoffset 0).toNat).take
            (min (toInt qlimit 50) 200).toNat).length
        ≤ (min (toInt qlimit 50) 200).toNat := by
          simp [List.length_take]
      _ ≤ 200 := by
          have : min (toInt qlimit 50) 200 ≤ 200 := min_le_right _ _
          omega

-- =====================================================
-- C6 — roster disambiguation
-- =====================================================

/-- C6: an office record counts as currently active exactly when its end date
is absent or strictly after the current time; and in the scenario of one
active body named "City Council", two office records in that body — one with
no end date, one ended in the past — and three persons including both record
holders, the selected member list is exactly the person of the record with
the absent end date. -/
theorem roster_disambiguation (bid pid1 pid2 pid3 : Nat) (t1 t2 : String)
    (e now : Int) (p1 p2 p3 : Person)
    (hid1 : p1.PersonId = pid1) (hid2 : p2.PersonId = pid2)
    (hid3 : p3.PersonId = pid3)
    (h21 : pid2 ≠ pid1) (h31 : pid3 ≠ pid1) (hpast : e ≤ now) :
    (∀ r : OfficeRecord, officeIsActive r now = true ↔
       (r.OfficeRecordEndDate = none ∨
        ∃ d, r.OfficeRecordEndDate = some d ∧ now < d)) ∧
    councilMembersOf [⟨bid, "City Council", 1⟩]
      [⟨bid, pid1, t1, none⟩, ⟨bid, pid2, t2, some e⟩]
      [p1, p2, p3] now = [p1] := by
  constructor
  · intro r
    cases hd : r.OfficeRecordEndDate with
    | none => simp [officeIsActive, hd]
    | some d => simp [officeIsActive, hd]
  · have hnotlt : ¬(now < e) := not_lt.mpr hpast
    have hsel : selectCouncilBodies [⟨bid, "City Council", 1⟩] =
        [⟨bid, "City Council", 1⟩] := rfl
    have hoff : activeCouncilOffices [bid]
        [⟨bid, pid1, t1, none⟩, ⟨bid, pid2, t2, some e⟩] now =
        [⟨bid, pid1, t1, none⟩] := by
      simp [activeCouncilOffices, officeIsActive, hnotlt]
    simp only [councilMembersOf, hsel, List.map_cons, List.map_nil, hoff, jsSetDedup,
      List.foldl_cons, List.foldl_nil, List.not_mem_nil, if_neg, List.nil_append]
    simp [hid1, hid2, hid3, h21, h31]

/-- C6 witness: the theorem applied to a concrete roster — body 7, an
unexpired record for person 1, a record for person 2 that ended at time 0,
three persons, current time 5. -/
theorem roster_disambiguation_witness :
    councilMembersOf [⟨7, "City Council", 1⟩]
      [⟨7, 1, "Councilmember", none⟩, ⟨7, 2, "Councilmember", some 0⟩]
      [⟨1, "Alice Johnson", 1⟩, ⟨2, "Bob Lee", 1⟩, ⟨3, "Carol King", 1⟩] 5 =
      [⟨1, "Alice Johnson", 1⟩] :=
  (roster_disambiguation 7 1 2 3 "Councilmember" "Councilmember" 0 5
    ⟨1, "Alice Johnson", 1⟩ ⟨2, "Bob Lee", 1⟩ ⟨3, "Carol King", 1⟩
    rfl rfl rfl (by decide) (by decide) (by decide)).2

-- =====================================================
-- C7 / C4 — buildPublicUrl
-- =====================================================

/-- On the string-or-absent subdomain, buildPublicUrl returns either the
host root (the final fallback) or a Congress.gov bill URL (primary or
URL-parsing fallback); the URL constructor sits inside try/catch and is
modelled by the optional parse result. -/
theorem buildPublicUrl_total (bill : Bill) :
    buildPublicUrl bill = "https://www.congress.gov/" ∨
    strStartsWith (buildPublicUrl bill) "https://www.congress.gov/bill/" = true := by
  simp only [buildPublicUrl]
  split
  case _ u heq =>
    right
    split at heq
    · exact absurd heq (by simp)
    · split at heq
      · exact absurd heq (by simp)
      · split at heq
        · exact absurd heq (by simp)
        · cases heq
          simp only [strAppend_assoc]
          exact strStartsWith_append _ _
  case _ heq =>
    split
    · left; rfl
    · split
      · left; rfl
      · split
        · right
          simp only [strAppend_assoc]
          exact strStartsWith_append _ _
        · left; rfl

/-- The primary path of buildPublicUrl: all three fields present, a
recognized type code, and at least one digit in the number give the
synthesized Congress.gov URL. -/
theorem buildPublicUrl_primary (c ty num slug : String) (url apiUrl : Option String)
    (hc : c ≠ "") (hty : TYPE_MAP (toLowerS ty) = some slug)
    (hnum : digitsOf num ≠ "") :
    buildPublicUrl ⟨some c, some ty, some num, url, apiUrl⟩ =
      "https://www.congress.gov/bill/" ++ ordinalSuffixStr c ++ "-congress/" ++
        slug ++ "/" ++ digitsOf num := by
  have hty' : toLowerS ty ≠ "" := by
    intro h; rw [h] at hty; simp [TYPE_MAP] at hty
  have hnum' : num ≠ "" := by
    intro h; rw [h] at hnum; exact absurd hnum (by decide)
  simp [buildPublicUrl, hc, hty', hnum', hty, hnum]

/-- The URL-parsing fallback of buildPublicUrl with an unrecognized type
code: the slug degrades to `<type>-bill`. -/
theorem buildPublicUrl_fallback_slug (raw : String) (parts : List String) (i : Nat)
    (hparse : parseHttpUrlPath raw = some parts)
    (hidx : parts.findIdx? (fun p => p = "bill") = some i)
    (hlen : i + 4 ≤ parts.length)
    (hty : TYPE_MAP (toLowerS (parts.getD (i+2) "")) = none) :
    buildPublicUrl ⟨none, none, none, some raw, none⟩ =
      "https://www.congress.gov/bill/" ++ ordinalSuffixStr (parts.getD (i+1) "") ++
        "-congress/" ++ (toLowerS (parts.getD (i+2) "") ++ "-bill") ++ "/" ++
        parts.getD (i+3) "" := by
  by_cases hraw : raw = ""
  · subst hraw
    have hnone : parseHttpUrlPath "" = none := by decide
    rw [hnone] at hparse
    exact Option.noConfusion hparse
  · have hty' : TYPE_MAP (toLowerS (parts[i+2]?.getD "")) = none := by
      simpa [List.getD] using hty
    simp [buildPublicUrl, jsOrStr, hraw, hparse, hidx, hlen, hty']

/-- C4: with congress, type and number present, a type code in the
eight-entry slug table and at least one digit in the number, buildPublicUrl
returns https://www.congress.gov/bill/ordinal(congress)-congress/slug/digits;
the worked example for {119, hr, H.R.187}; on the URL-parsing fallback an
unrecognized type code yields the slug type-bill; and an all-missing record
yields the host root. -/
theorem buildPublicUrl_spec :
    (∀ (c ty num slug : String) (url apiUrl : Option String),
      c ≠ "" → TYPE_MAP (toLowerS ty) = some slug → digitsOf num ≠ "" →
      buildPublicUrl ⟨some c, some ty, some num, url, apiUrl⟩ =
        "https://www.congress.gov/bill/" ++ ordinalSuffixStr c ++ "-congress/" ++
          slug ++ "/" ++ digitsOf num) ∧
    buildPublicUrl ⟨some "119", some "hr", some "H.R.187", none, none⟩ =
      "https://www.congress.gov/bill/119th-congress/house-bill/187" ∧
    (∀ (raw : String) (parts : List String) (i : Nat),
      parseHttpUrlPath raw = some parts →
      parts.findIdx? (fun p => p = "bill") = some i →
      i + 4 ≤ parts.length →
      TYPE_MAP (toLowerS (parts.getD (i+2) "")) = none →
      buildPublicUrl ⟨none, none, none, some raw, none⟩ =
        "https://www.congress.gov/bill/" ++ ordinalSuffixStr (parts.getD (i+1) "") ++
          "-congress/" ++ (toLowerS (parts.getD (i+2) "") ++ "-bill") ++ "/" ++
          parts.getD (i+3) "") ∧
    buildPublicUrl ⟨none, none, none, none, none⟩ = "https://www.congress.gov/" :=
  ⟨fun c ty num slug url apiUrl hc hty hnum =>
      buildPublicUrl_primary c ty num slug url apiUrl hc hty hnum,
   by decide,
   fun raw parts i hparse hidx hlen hty =>
      buildPublicUrl_fallback_slug raw parts i hparse hidx hlen hty,
   by decide⟩

/-- C4 witness: the theorem's primary clause applied at a concrete senate
resolution, and its fallback clause applied at a concrete API URL with the
unrecognized type code "xyz". -/
theorem buildPublicUrl_spec_witness :
    buildPublicUrl ⟨some "118", some "sres", some "S.Res.5", none, none⟩ =
      "https://www.congress.gov/bill/118th-congress/senate-resolution/5" ∧
    buildPublicUrl ⟨none, none, none,
        some "https://api.congress.gov/v3/bill/119/xyz/42", none⟩ =
      "https://www.congress.gov/bill/119th-congress/xyz-bill/42" := by
  constructor
  · have h := buildPublicUrl_spec.1 "118" "sres" "S.Res.5" "senate-resolution"
      none none (by decide) (by decide) (by decide)
    rw [h]; decide
  · have h := buildPublicUrl_spec.2.2.1 "https://api.congress.gov/v3/bill/119/xyz/42"
      ["v3", "bill", "119", "xyz", "42"] 1 (by decide) (by decide) (by decide) (by decide)
    rw [h]; decide

-- =====================================================
-- C1 — round-trip through the fallback parser
-- =====================================================

/-- Characters of a string rebuilt from a list. -/
theorem strToList_mk (l : List Char) : (String.mk l).toList = l := rfl

/-- A string with a nonempty right append factor is nonempty. -/
theorem strAppend_ne_right (a b : String) (hb : b ≠ "") : a ++ b ≠ "" := by
  intro h
  have h2 : (a ++ b).toList = [] := congrArg String.toList h
  rw [strToList_append] at h2
  rcases List.append_eq_nil.mp h2 with ⟨-, hb2⟩
  exact hb (by rw [← strMk_toList b, hb2])

/-- Decimal digit characters are digits. -/
theorem digitChar_isDigit (n : Nat) (h : n < 10) : (Nat.digitChar n).isDigit = true := by
  interval_cases n <;> decide

/-- Every character produced by the decimal digit expansion is a digit. -/
theorem toDigitsCore_digits (fuel : Nat) : ∀ (n : Nat) (ds : List Char),
    (∀ ch ∈ ds, ch.isDigit = true) →
    ∀ ch ∈ Nat.toDigitsCore 10 fuel n ds, ch.isDigit = true := by
  induction fuel with
  | zero => intro n ds hds ch hch; exact hds ch hch
  | succ f ih =>
    intro n ds hds ch hch
    have hcons : ∀ c ∈ Nat.digitChar (n % 10) :: ds, c.isDigit = true := by
      intro c hc
      rcases List.mem_cons.mp hc with rfl | hm
      · exact digitChar_isDigit _ (Nat.mod_lt _ (by norm_num))
      · exact hds c hm
    simp only [Nat.toDigitsCore] at hch
    by_cases h0 : n / 10 = 0
    · rw [if_pos h0] at hch
      exact hcons ch hch
    · rw [if_neg h0] at hch
      exact ih (n / 10) (Nat.digitChar (n % 10) :: ds) hcons ch hch

/-- Every character of the decimal representation of a Nat is a digit. -/
theorem natRepr_digits (n : Nat) : ∀ ch ∈ (toString n).toList, ch.isDigit = true := by
  intro ch hch
  have h : (toString n).toList = Nat.toDigitsCore 10 (n+1) n [] := rfl
  rw [h] at hch
  exact toDigitsCore_digits (n+1) n [] (by simp) ch hch

/-- The ordinal string of a Nat contains no slash. -/
theorem ordinalSuffix_no_slash (n : Nat) : '/' ∉ (ordinalSuffix n).toList := by
  intro hmem
  simp only [ordinalSuffix] at hmem
  split_ifs at hmem <;>
    (rw [strToList_append] at hmem
     rcases List.mem_append.mp hmem with h | h
     · exact absurd (natRepr_digits n _ h) (by decide)
     · revert h; decide)

/-- The string-level ordinal contains no slash. -/
theorem ordinalSuffixStr_no_slash (s : String) : '/' ∉ (ordinalSuffixStr s).toList := by
  unfold ordinalSuffixStr
  cases parseNatNumeral s with
  | none => decide
  | some n => exact ordinalSuffix_no_slash n

/-- The ordinal string of a Nat is nonempty. -/
theorem ordinalSuffix_ne_empty (n : Nat) : ordinalSuffix n ≠ "" := by
  simp only [ordinalSuffix]
  split_ifs <;> exact strAppend_ne_right (toString n) _ (by decide)

/-- The string-level ordinal is nonempty. -/
theorem ordinalSuffixStr_ne_empty (s : String) : ordinalSuffixStr s ≠ "" := by
  unfold ordinalSuffixStr
  cases parseNatNumeral s with
  | none => decide
  | some n => exact ordinalSuffix_ne_empty n

/-- The digit extraction contains no slash. -/
theorem digitsOf_no_slash (s : String) : '/' ∉ (digitsOf s).toList := by
  intro h
  simp only [digitsOf, strToList_mk] at h
  exact absurd (List.mem_filter.mp h).2 (by decide)

/-- Facts about every slug in the table: lowercase-invariant, nonempty, and
slash-free. -/
theorem TYPE_MAP_slug_facts (t slug : String) (h : TYPE_MAP t = some slug) :
    toLowerS slug = slug ∧ slug ≠ "" ∧ '/' ∉ slug.toList := by
  unfold TYPE_MAP at h
  split_ifs at h <;> (try injection h with h2) <;> (try subst h2) <;> (try decide)

/-- Parsing the synthesized Congress.gov bill URL: for slash-free nonempty
segments, the path splits into the segment "bill" followed by the three
payload segments. -/
theorem parseHttpUrlPath_bill (A B C : String)
    (hA : '/' ∉ A.toList) (hA' : A ≠ "")
    (hB : '/' ∉ B.toList) (hB' : B ≠ "")
    (hC : '/' ∉ C.toList) (hC' : C ≠ "") :
    parseHttpUrlPath ("https://www.congress.gov/bill/" ++ A ++ "/" ++ B ++ "/" ++ C) =
      some ["bill", A, B, C] := by
  have hP : ("https://www.congress.gov/bill/" : String)
      = "https://" ++ ("www.congress.gov" ++ ("/" ++ ("bill" ++ "/"))) := by decide
  rw [hP]
  simp only [strAppend_assoc]
  have hslash : ("/" : String).toList = ['/'] := rfl
  have htl : ("https://" ++ ("www.congress.gov" ++ ("/" ++ ("bill" ++ ("/" ++ (A ++ ("/" ++ (B ++ ("/" ++ C))))))))).toList
      = "https://".toList ++ ("www.congress.gov".toList ++ '/' ::
          ("bill".toList ++ '/' :: (A.toList ++ '/' :: (B.toList ++ '/' :: C.toList)))) := by
    simp [strToList_append, hslash]
  simp only [parseHttpUrlPath, htl, prefOf_append, if_true]
  rw [show (8 : Nat) = ("https://" : String).toList.length from rfl, List.drop_left]
  rw [splitOnChar_append _ _ _ (by decide), splitOnChar_append _ _ _ (by decide),
      splitOnChar_append _ _ _ hA, splitOnChar_append _ _ _ hB,
      splitOnChar_not_mem _ _ hC]
  simp [strMk_toList, hA', hB', hC']

/-- C1 counterexample: the public URL built from (119, hr, 187) re-parses,
via the fallback path, to the triple ("119th-congress", "house-bill", "187"),
which differs from the constructing triple ("119", "hr", "187") — the
fallback was written for API URLs of the form /v3/bill/119/hr/187, not for
the public URLs the primary path emits. -/
theorem billUrl_roundtrip_cex :
    parseBillTriple (buildPublicUrl ⟨some "119", some "hr", some "187", none, none⟩) =
      some ("119th-congress", "house-bill", "187") ∧
    ("119th-congress", "house-bill", "187") ≠ (("119", "hr", "187") :
      String × String × String) := by decide

/-- C1 amended: for every bill whose URL is produced by the primary path from
a (congress, type, number) triple with a recognized type code, re-parsing
that URL via the fallback path succeeds and yields the transformed triple
(ordinal(congress) ++ "-congress", slug(type), digits(number)) — the number
digits round-trip exactly, while the congress comes back as the
ordinal-congress path segment and the type as its slug rather than as the
original values. -/
theorem billUrl_roundtrip_amended (c ty num slug : String)
    (hc : c ≠ "") (hty : TYPE_MAP (toLowerS ty) = some slug)
    (hnum : digitsOf num ≠ "") :
    parseBillTriple (buildPublicUrl ⟨some c, some ty, some num, none, none⟩) =
      some (ordinalSuffixStr c ++ "-congress", slug, digitsOf num) := by
  obtain ⟨hlow, hne, hns⟩ := TYPE_MAP_slug_facts _ _ hty
  rw [buildPublicUrl_primary c ty num slug none none hc hty hnum]
  have hA : '/' ∉ (ordinalSuffixStr c ++ "-congress").toList := by
    rw [strToList_append]
    intro hmem
    rcases List.mem_append.mp hmem with h | h
    · exact ordinalSuffixStr_no_slash c h
    · revert h; decide
  have hA' : ordinalSuffixStr c ++ "-congress" ≠ "" :=
    strAppend_ne_right _ _ (by decide)
  have hC : '/' ∉ (digitsOf num).toList := digitsOf_no_slash num
  have hshape : "https://www.congress.gov/bill/" ++ ordinalSuffixStr c ++
      "-congress/" ++ slug ++ "/" ++ digitsOf num =
      "https://www.congress.gov/bill/" ++ (ordinalSuffixStr c ++ "-congress") ++
      "/" ++ slug ++ "/" ++ digitsOf num := by
    rw [show ("-congress/" : String) = "-congress" ++ "/" by decide]
    simp only [strAppend_assoc]
  rw [hshape]
  have hparse := parseHttpUrlPath_bill (ordinalSuffixStr c ++ "-congress") slug
    (digitsOf num) hA hA' hns hne hC hnum
  have hidx : List.findIdx? (fun p => p = "bill")
      ["bill", ordinalSuffixStr c ++ "-congress", slug, digitsOf num] = some 0 := rfl
  simp [parseBillTriple, hparse, hidx, hlow, List.getD]

/-- C1 witness: the amended theorem applied at the concrete triple
(119, hr, H.R.187). -/
theorem billUrl_roundtrip_amended_witness :
    parseBillTriple (buildPublicUrl ⟨some "119", some "hr", some "H.R.187",
        none, none⟩) = some ("119th-congress", "house-bill", "187") := by
  have h := billUrl_roundtrip_amended "119" "hr" "H.R.187" "house-bill"
    (by decide) (by decide) (by decide)
  rw [h]; decide

-- =====================================================
-- C7 — totality over the full value domain
-- =====================================================

/-- `v || ""` on an embedded string-or-absent value is the embedded
`Option.getD _ ""`. -/
theorem jsOrEmpty_toJsVal (o : Option String) :
    jsOrEmpty (toJsVal o) = JsVal.vstr (o.getD "") := by
  cases o with
  | none => rfl
  | some s => by_cases hs : s = "" <;> simp [toJsVal, jsOrEmpty, jsTruthy, hs]

/-- The URL-constructor argument over embedded string-or-absent values
agrees with the string-domain `bill.url || bill.apiUrl || ""`. -/
theorem jsUrlArg_toJsVal (ou oa : Option String) :
    jsToString (jsOrEmpty (jsValOr (toJsVal ou) (toJsVal oa))) =
      jsOrStr (ou.getD "") (oa.getD "") := by
  cases ou with
  | none =>
    cases oa with
    | none => rfl
    | some t => by_cases ht : t = "" <;>
        simp [toJsVal, jsValOr, jsOrEmpty, jsTruthy, jsToString, jsOrStr, ht]
  | some s =>
    cases oa with
    | none => by_cases hs : s = "" <;>
        simp [toJsVal, jsValOr, jsOrEmpty, jsTruthy, jsToString, jsOrStr, hs]
    | some t => by_cases hs : s = "" <;> by_cases ht : t = "" <;>
        simp [toJsVal, jsValOr, jsOrEmpty, jsTruthy, jsToString, jsOrStr, hs, ht]

/-- On every record whose fields are strings or absent, the full-domain
function raises nothing and returns exactly what the string-domain
buildPublicUrl returns. -/
theorem buildPublicUrlJs_ok_on_strings (bill : Bill) :
    buildPublicUrlJs (rawOfBill bill) = Except.ok (buildPublicUrl bill) := by
  rcases bill with ⟨oc, ot, onum, ou, oa⟩
  simp only [rawOfBill, buildPublicUrlJs, jsOrEmpty_toJsVal, jsUrlArg_toJsVal, jsLowerVal]
  by_cases hc : oc.getD "" = "" <;>
    by_cases ht : toLowerS (ot.getD "") = "" <;>
    by_cases hn : onum.getD "" = "" <;>
    simp [buildPublicUrl, jsTruthy, jsToString, ordinalSuffixVal, hc, ht, hn]

/-- C7 counterexample: a record with the truthy non-string type 5 (a
number) makes buildPublicUrl throw — `(bill.type || "").toLowerCase()` is a
TypeError on a non-string, and that call is outside the try/catch, which
protects only the URL constructor.  The function is therefore not total on
records with non-string fields. -/
theorem buildPublicUrl_nonstring_cex :
    buildPublicUrlJs ⟨JsVal.vnum 119, JsVal.vnum 5, JsVal.vstr "187",
      JsVal.vnull, JsVal.vnull⟩ =
      Except.error "TypeError: toLowerCase is not a function" := rfl

/-- C7 amended: buildPublicUrl never raises on any record whose fields are
strings or absent — including missing, empty and malformed strings and
unparsable raw URLs — and on that domain it degrades through the fallback
chain, returning either the host root or a Congress.gov bill URL; on a
truthy non-string type field it instead throws a TypeError (see the
counterexample). -/
theorem buildPublicUrl_string_total (bill : Bill) :
    buildPublicUrlJs (rawOfBill bill) = Except.ok (buildPublicUrl bill) ∧
    (buildPublicUrl bill = "https://www.congress.gov/" ∨
     strStartsWith (buildPublicUrl bill) "https://www.congress.gov/bill/" = true) :=
  ⟨buildPublicUrlJs_ok_on_strings bill, buildPublicUrl_total bill⟩
